import Mathlib

/-!
Shallow embedding of the tslog logging facade (package `tslog` plus its
`writer` sub-package) and proofs about its observable contract.

Go values that are interface references (writers, loggers, driver
functions) are modelled as small inductive types carrying an identity,
with an explicit `nil` constructor where the Go interface value can be
nil.  Go strings used as tokens (encoder names, error messages) are Lean
`String`s; the text run through `ParseLevel` is modelled as a rune list
(`List Char`), which is how Go's `strings.ToLower`/`TrimSpace` traverse
it.  `int` fields are Lean `Int` (no arithmetic here ever approaches the
machine-width bounds, only sign tests and equality).
-/

namespace Tslog

/-- `type Level int8`: ordinal severity.  Modelled as `Int`. -/
abbrev Level := Int

/-- `NoneLevel Level = iota` (0): disabled logging. -/
def NoneLevel : Level := 0

/-- `DebugLevel` (1). -/
def DebugLevel : Level := 1

/-- `InfoLevel` (2). -/
def InfoLevel : Level := 2

/-- `WarnLevel` (3). -/
def WarnLevel : Level := 3

/-- `ErrorLevel` (4). -/
def ErrorLevel : Level := 4

/-- `EncoderJSON = "json"`. -/
def EncoderJSON : String := "json"

/-- `EncoderConsole = "console"`. -/
def EncoderConsole : String := "console"

/-- An `io.Writer` interface value as stored in `Options.w`.  `nil` is the
nil interface value; `stdout`/`stderr` are the process streams returned by
`writer.NewStdoutWriter`/`writer.NewStderrWriter`; `handle` is any other
writer, distinguished by identity. -/
inductive GoWriter where
  | nil
  | stdout
  | stderr
  | handle (id : Nat)
deriving DecidableEq, Repr

/-- A `Driver` (`func(*Options) Logger`) interface value as stored in
`Options.driver`.  `nil` is the nil function value, `zapDriver` is
`NewZapDriver`, `noneDriver` is `NewNoneDriver`, and `custom` is any other
factory, distinguished by identity. -/
inductive DriverRef where
  | nil
  | zapDriver
  | noneDriver
  | custom (id : Nat)
deriving DecidableEq, Repr

/-- `type Options struct` from tslog.go. -/
structure Options where
  lvl : Level
  w : List GoWriter
  encoder : String
  caller : Bool
  driver : DriverRef
deriving DecidableEq, Repr

/-- `func (o *Options) Validate() error` from tslog.go: nil driver, then
encoder not json/console, then empty writer list, in that order. -/
def Options.Validate (o : Options) : Except String Unit :=
  if o.driver = DriverRef.nil then
    Except.error "driver cannot be nil"
  else if o.encoder ≠ EncoderJSON ∧ o.encoder ≠ EncoderConsole then
    Except.error "encoder must be either json or console"
  else if o.w.length = 0 then
    Except.error "at least one writer must be specified"
  else
    Except.ok ()

/-- `func defaultOptions() *Options` from tslog.go.  Note: the writer list
is left at its zero value (empty). -/
def defaultOptions : Options :=
  { lvl := DebugLevel
    w := []
    encoder := EncoderJSON
    caller := false
    driver := DriverRef.zapDriver }

/-- `type FuncOption func(*Options)`: a nilable function value.  `none` is
the nil function. -/
abbrev FuncOption := Option (Options → Options)

/-- `func WithLevel(lvl Level) FuncOption`. -/
def WithLevel (lvl : Level) : FuncOption :=
  some (fun o => { o with lvl := lvl })

/-- `func WithCaller(caller bool) FuncOption`. -/
def WithCaller (caller : Bool) : FuncOption :=
  some (fun o => { o with caller := caller })

/-- `func WithEncoder(encoder string) FuncOption`. -/
def WithEncoder (encoder : String) : FuncOption :=
  some (fun o => { o with encoder := encoder })

/-- `func WithDriver(d Driver) FuncOption`. -/
def WithDriver (d : DriverRef) : FuncOption :=
  some (fun o => { o with driver := d })

/-- `func WithWriter(w ...io.Writer) FuncOption` at the value level: the
`make`+`copy` in the source produces a fresh slice whose contents equal the
argument slice (the aliasing consequences of that copy are modelled
separately by `WithWriterM` below). -/
def WithWriter (w : List GoWriter) : FuncOption :=
  some (fun o => { o with w := w })

/-- One step of the option-application loop in `NewLogger`: a nil
`FuncOption` is skipped, any other is applied. -/
def applyFuncOption (o : Options) (f : FuncOption) : Options :=
  match f with
  | some g => g o
  | none => o

/-- The option-application loop of `NewLogger`: fold the options in order
over `defaultOptions`. -/
def applyFuncOptions (fos : List FuncOption) : Options :=
  fos.foldl applyFuncOption defaultOptions

/-- `func NewLogger(funcOpts ...FuncOption) Logger`, up to the point where
the configured driver is invoked: the `Options` value actually handed to
`opts.driver`.  On validation failure the whole configuration is replaced
by `defaultOptions`. -/
def NewLoggerOptions (fos : List FuncOption) : Options :=
  let opts := applyFuncOptions fos
  match opts.Validate with
  | Except.error _ => defaultOptions
  | Except.ok _ => opts

/-- The driver that `NewLogger` ends up invoking. -/
def NewLoggerDriver (fos : List FuncOption) : DriverRef :=
  (NewLoggerOptions fos).driver

/-! ### ParseLevel

`ParseLevel` runs `strings.ToLower(strings.TrimSpace(text))` and looks the
result up in the `unmarshalLevelText` map.  Text is modelled as the rune
list the Go string decodes to. -/

/-- `unicode.IsSpace`, the predicate `strings.TrimSpace` trims by: Latin-1
white space (`\t \n \v \f \r` space, NEL, NBSP) plus the Unicode
`White_Space` code points. -/
def goIsSpace (c : Char) : Bool :=
  c.toNat = 32 || c.toNat = 9 || c.toNat = 10 || c.toNat = 11 ||
  c.toNat = 12 || c.toNat = 13 || c.toNat = 0x85 || c.toNat = 0xA0 ||
  c.toNat = 0x1680 || (0x2000 ≤ c.toNat && c.toNat ≤ 0x200A) ||
  c.toNat = 0x2028 || c.toNat = 0x2029 || c.toNat = 0x202F ||
  c.toNat = 0x205F || c.toNat = 0x3000

/-- The per-rune mapping of `strings.ToLower` (Go's simple Unicode
lower-case mapping), restricted to the mappings that can land inside the
ASCII-only level-name table: the ASCII letters, plus the two non-ASCII
code points whose simple lower case is an ASCII letter (U+0130 LATIN
CAPITAL LETTER I WITH DOT ABOVE ↦ i, U+212A KELVIN SIGN ↦ k).  All other
runes relevant to a table match are fixed points, as in Go. -/
def goToLowerChar (c : Char) : Char :=
  if 65 ≤ c.toNat ∧ c.toNat ≤ 90 then Char.ofNat (c.toNat + 32)
  else if c.toNat = 0x130 then 'i'
  else if c.toNat = 0x212A then 'k'
  else c

/-- `strings.ToLower`, rune by rune. -/
def goToLower (l : List Char) : List Char :=
  l.map goToLowerChar

/-- `strings.TrimSpace`: drop `unicode.IsSpace` runes from both ends. -/
def goTrimSpace (l : List Char) : List Char :=
  ((l.dropWhile goIsSpace).reverse.dropWhile goIsSpace).reverse

/-- The `unmarshalLevelText` map from tslog.go, as an association list. -/
def unmarshalLevelText : List (List Char × Level) :=
  [(['n', 'o', 'n', 'e'], NoneLevel),
   (['d', 'e', 'b', 'u', 'g'], DebugLevel),
   (['i', 'n', 'f', 'o'], InfoLevel),
   (['w', 'a', 'r', 'n'], WarnLevel),
   (['e', 'r', 'r', 'o', 'r'], ErrorLevel)]

/-- Map lookup `unmarshalLevelText[text]`. -/
def lookupLevel (t : List Char) : Option Level :=
  match unmarshalLevelText.find? (fun p => p.fst == t) with
  | some p => some p.snd
  | none => none

/-- `func ParseLevel(text string) Level` from tslog.go: lower-case the
trimmed text, look it up, and fall back to `NoneLevel`. -/
def ParseLevel (text : List Char) : Level :=
  let t := goToLower (goTrimSpace text)
  match lookupLevel t with
  | some lvl => lvl
  | none => NoneLevel

/-! ### The Zap driver (zap.go)

`zapcore.Level` is an `int8` with `Debug = -1, Info = 0, Warn = 1,
Error = 2, DPanic = 3, Panic = 4, Fatal = 5`; it is modelled as `Int`.
A `zapcore.Core` built with gate level `g` enables a record of severity
`s` iff `g ≤ s`. -/

/-- `zapcore.DebugLevel`. -/
def zapcoreDebugLevel : Int := -1

/-- `zapcore.InfoLevel`. -/
def zapcoreInfoLevel : Int := 0

/-- `zapcore.FatalLevel`. -/
def zapcoreFatalLevel : Int := 5

/-- The `zapLevel` map from zap.go: `NoneLevel` maps to
`zapcore.FatalLevel + 1` (effectively disables logging); levels outside
the map are absent (`none`). -/
def zapLevel (l : Level) : Option Int :=
  if l = NoneLevel then some (zapcoreFatalLevel + 1)
  else if l = DebugLevel then some zapcoreDebugLevel
  else if l = InfoLevel then some 0
  else if l = WarnLevel then some 1
  else if l = ErrorLevel then some 2
  else none

/-- The level gate of the `zapcore.Core`: a record of severity `sev`
passes the gate `gate` iff `gate ≤ sev` (`zap.AtomicLevel.Enabled`). -/
def coreEnabled (gate sev : Int) : Bool :=
  decide (gate ≤ sev)

/-- Options resolution at the top of `NewZapDriver` (zap.go): a nil
`*Options` is replaced by `defaultOptions()`, then a failing
`opts.Validate()` replaces the whole configuration by `defaultOptions()`
(after printing a warning to stderr, which has no further effect). -/
def resolveZapOptions (optsIn : Option Options) : Options :=
  let o := optsIn.getD defaultOptions
  match o.Validate with
  | Except.error _ => defaultOptions
  | Except.ok _ => o

/-- The syncer-building loop of `NewZapDriver`: when `len(opts.w) == 0`
standard output is used, otherwise exactly the non-nil writers are kept,
in order.  (Note the stdout fallback tests the original list's length,
before nil entries are skipped.) -/
def buildSyncers (w : List GoWriter) : List GoWriter :=
  if w.length = 0 then [GoWriter.stdout]
  else w.filter (fun x => x != GoWriter.nil)

/-- The mutable state of a `zapLogger` value (zap.go): whether the `zap`
field holds a backend handle, and the `closed` flag.  The `sync.RWMutex`
serialises access; the sequential model is the per-call view. -/
structure ZapLogger where
  zapAssigned : Bool
  closed : Bool
deriving DecidableEq, Repr

/-- What `NewZapDriver` observably constructs: the gate level installed in
the atomic level, the encoder chosen, the fan-out syncer list, whether
caller capture was enabled, and the returned `zapLogger` state. -/
structure ZapBuilt where
  gate : Int
  encoderKind : String
  syncers : List GoWriter
  callerEnabled : Bool
  logger : ZapLogger
deriving DecidableEq, Repr

/-- `func NewZapDriver(opts *Options) Logger` (zap.go), as the
construction outputs listed in `ZapBuilt`.  `lvl := zapcore.InfoLevel`
then the `zapLevel` lookup; the encoder switch sends `EncoderConsole` to
the console encoder and everything else (including the `EncoderJSON`
case, which falls through) to the JSON encoder. -/
def NewZapDriver (optsIn : Option Options) : ZapBuilt :=
  let o := resolveZapOptions optsIn
  let lvl := (zapLevel o.lvl).getD zapcoreInfoLevel
  let enc := if o.encoder = EncoderConsole then EncoderConsole else EncoderJSON
  { gate := lvl
    encoderKind := enc
    syncers := buildSyncers o.w
    callerEnabled := o.caller
    logger := { zapAssigned := true, closed := false } }

/-- The twelve logging methods of the `Logger` interface. -/
inductive Method where
  | debug | info | warn | error
  | debugf | infof | warnf | errorf
  | debugt | infot | warnt | errort
deriving DecidableEq, Repr

/-- The `zapcore.Level` at which each facade method emits its record
(`Debug*` methods emit at Debug, etc.). -/
def methodSeverity (m : Method) : Int :=
  match m with
  | Method.debug | Method.debugf | Method.debugt => zapcoreDebugLevel
  | Method.info | Method.infof | Method.infot => 0
  | Method.warn | Method.warnf | Method.warnt => 1
  | Method.error | Method.errorf | Method.errort => 2

/-- Whether a record emitted by method `m` on a logger built as `b`
passes the severity gate and reaches the sink. -/
def zapEmits (b : ZapBuilt) (m : Method) : Bool :=
  coreEnabled b.gate (methodSeverity m)

/-- `func (l *zapLogger) z() *zap.SugaredLogger` (zap.go): panics when the
backend handle was never assigned, then when the logger is closed.  The
panic is modelled as `Except.error` carrying the panic message. -/
def ZapLogger.zGate (l : ZapLogger) : Except String Unit :=
  if l.zapAssigned = false then Except.error "tslog: zapLogger not initialized"
  else if l.closed then Except.error "tslog: zapLogger has been closed"
  else Except.ok ()

/-- Every logging method first calls `l.z()`; the call aborts with the
panic when the gate trips, and otherwise proceeds to the backend emit. -/
def ZapLogger.invoke (l : ZapLogger) (m : Method) : Except String Method :=
  match l.zGate with
  | Except.error s => Except.error s
  | Except.ok _ => Except.ok m

/-- `func (l *zapLogger) Close() error` (zap.go): an already-closed logger
returns nil unchanged; otherwise the backend (if assigned) is synced and
dropped, and the logger is marked closed.  The value of `l.zap.Sync()`
depends on the sink: `zapcore.AddSync` wraps a plain `io.Writer` (such as
a buffer) with a no-op `Sync` returning nil, but hands `*os.File` writers
like `os.Stdout` through unwrapped, and their `Sync` can fail on a
terminal or pipe.  That flush outcome therefore enters the model as the
explicit input `syncResult`; `Close` returns it unchanged on the first
close of an assigned logger and contributes no error of its own. -/
def ZapLogger.close (l : ZapLogger) (syncResult : Option String) :
    Option String × ZapLogger :=
  if l.closed then (Option.none, l)
  else ((if l.zapAssigned then syncResult else Option.none),
        { zapAssigned := false, closed := true })

/-! ### Structured emission (zap.go `*t` methods)

A `T` is `map[string]any`; a Go map variable can also be nil.  It is
modelled as `Option` of an association list (`none` = nil map), which
fixes one iteration order — the order itself is unspecified in Go and no
theorem below depends on it. -/

/-- A Go `any` argument as it reaches the logger: a string, an integer, a
boolean (the shapes exercised by this repository's call sites; the
rendering of further shapes never matters to a claim). -/
inductive GoValue where
  | str (s : String)
  | int (n : Int)
  | boolv (b : Bool)
deriving DecidableEq, Repr

/-- A `T` value (`map[string]any`, possibly nil). -/
abbrev TFields := Option (List (String × GoValue))

/-- `len` of a possibly-nil Go map. -/
def tLen (t : TFields) : Nat :=
  match t with
  | Option.none => 0
  | some l => l.length

/-- `func (l *zapLogger) keysAndValues(args T) []any` (zap.go): nil for an
empty map, otherwise the alternating key/value flattening. -/
def keysAndValues (args : TFields) : List GoValue :=
  if tLen args = 0 then []
  else
    (args.getD []).foldl (fun acc p => acc ++ [GoValue.str p.fst, p.snd]) []

/-- The four severities shared by the method triples. -/
inductive Sev where
  | debug | info | warn | error
deriving DecidableEq, Repr

/-- A call into the Zap sugared logger: `Debug/Info/Warn/Error(args...)`
(print-style) or `Debugw/Infow/Warnw/Errorw(msg, kvs...)`. -/
inductive ZapCall where
  | print (sev : Sev) (args : List GoValue)
  | printw (sev : Sev) (msg : String) (kvs : List GoValue)
deriving DecidableEq, Repr

/-- `fmt.Sprint` rendering of one operand. -/
def renderGoValue : GoValue → String
  | GoValue.str s => s
  | GoValue.int n => toString n
  | GoValue.boolv b => toString b

/-- `fmt.Sprint`'s concatenation: a space is inserted between two
neighbouring operands only when neither is a string. -/
def goSprint : List GoValue → String
  | [] => ""
  | [v] => renderGoValue v
  | v1 :: v2 :: rest =>
      renderGoValue v1 ++
      (if v1 matches GoValue.str _ then "" else if v2 matches GoValue.str _ then "" else " ") ++
      goSprint (v2 :: rest)

/-- The log record a `ZapCall` produces, as (severity, message text,
structured key/value payload): print-style calls carry no structured
payload; `*w` calls carry their flattened pairs. -/
def recordOf : ZapCall → Sev × String × List GoValue
  | ZapCall.print sev args => (sev, goSprint args, [])
  | ZapCall.printw sev msg kvs => (sev, msg, kvs)

/-- The plain-message methods `Debug/Info/Warn/Error` of `zapLogger`
forward their arguments to the same sugared method. -/
def zapPlainMethod (sev : Sev) (args : List GoValue) : ZapCall :=
  ZapCall.print sev args

/-- The structured methods `Debugt/Infot/Warnt/Errort` of `zapLogger`:
`if len(args) == 0` the plain method is called with just the message,
otherwise `*w` with the flattened pairs. -/
def zapStructuredMethod (sev : Sev) (msg : String) (args : TFields) : ZapCall :=
  if tLen args = 0 then ZapCall.print sev [GoValue.str msg]
  else ZapCall.printw sev msg (keysAndValues args)

/-! ### writer/lumberjack.go -/

/-- `type LumberJackConfig struct`. -/
structure LumberJackConfig where
  FilePath : String
  MaxRotatedSize : Int
  MaxRetainDay : Int
  MaxRetainFiles : Int
  LocalTime : Bool
  Compress : Bool
deriving DecidableEq, Repr

/-- `func (c *LumberJackConfig) Validate() error`. -/
def LumberJackConfig.Validate (c : LumberJackConfig) : Except String Unit :=
  if c.FilePath = "" then Except.error "FilePath cannot be empty"
  else if c.MaxRotatedSize < 0 then Except.error "MaxRotatedSize cannot be negative"
  else if c.MaxRetainDay < 0 then Except.error "MaxRetainDay cannot be negative"
  else if c.MaxRetainFiles < 0 then Except.error "MaxRetainFiles cannot be negative"
  else Except.ok ()

/-- `func (c *LumberJackConfig) setDefaults()`: each zero-valued numeric
field receives its default. -/
def LumberJackConfig.setDefaults (c : LumberJackConfig) : LumberJackConfig :=
  { c with
    MaxRotatedSize := if c.MaxRotatedSize = 0 then 100 else c.MaxRotatedSize
    MaxRetainDay := if c.MaxRetainDay = 0 then 7 else c.MaxRetainDay
    MaxRetainFiles := if c.MaxRetainFiles = 0 then 3 else c.MaxRetainFiles }

/-- The `lumberjack.Logger` value built on success. -/
structure LumberjackLogger where
  Filename : String
  MaxSize : Int
  MaxAge : Int
  MaxBackups : Int
  LocalTime : Bool
  Compress : Bool
deriving DecidableEq, Repr

/-- `func NewLumberJackWriter(conf LumberJackConfig) (io.Writer, error)`:
validate, wrap a failure's message, apply defaults, build the logger. -/
def NewLumberJackWriter (conf : LumberJackConfig) : Except String LumberjackLogger :=
  match conf.Validate with
  | Except.error e => Except.error ("invalid lumberjack config: " ++ e)
  | Except.ok _ =>
      let c := conf.setDefaults
      Except.ok
        { Filename := c.FilePath
          MaxSize := c.MaxRotatedSize
          MaxAge := c.MaxRetainDay
          MaxBackups := c.MaxRetainFiles
          LocalTime := c.LocalTime
          Compress := c.Compress }

/-! ### The default-logger slot (default_logger.go) -/

/-- A `Logger` interface value as held in the `defaultLogger` slot:
`nil` or a reference to a concrete logger, distinguished by identity. -/
inductive GoLogger where
  | nil
  | ref (id : Nat)
deriving DecidableEq, Repr

/-- `func DefaultLogger() Logger`: read the slot (under the read lock). -/
def DefaultLogger (slot : GoLogger) : GoLogger :=
  slot

/-- `func UpdateDefaultLogger(l Logger)` as a transformer of the slot:
a nil logger is ignored, anything else replaces the slot (under the
write lock). -/
def UpdateDefaultLogger (slot : GoLogger) (l : GoLogger) : GoLogger :=
  if l = GoLogger.nil then slot else l

/-! ### Slice aliasing of `WithWriter` (tslog.go)

`WithWriter` does `o.w = make([]io.Writer, len(w)); copy(o.w, w)`.  To
state what the copy buys, Go slice aliasing is made explicit: a store of
backing arrays, slices as indices into it. -/

/-- The heap of writer-slice backing arrays; a slice value is an index
into `arrays`. -/
structure WStore where
  arrays : List (List GoWriter)
deriving Repr

/-- Read the elements a slice currently holds. -/
def WStore.read (s : WStore) (sl : Nat) : List GoWriter :=
  s.arrays.getD sl []

/-- `make` a fresh backing array holding `content`; returns the new store
and the new slice. -/
def WStore.alloc (s : WStore) (content : List GoWriter) : WStore × Nat :=
  ({ arrays := s.arrays ++ [content] }, s.arrays.length)

/-- An in-place element assignment `slice[i] = w` through an existing
slice — the external mutation of C3's scenario. -/
def WStore.setElem (s : WStore) (sl i : Nat) (w : GoWriter) : WStore :=
  { arrays := s.arrays.set sl ((s.arrays.getD sl []).set i w) }

/-- The `w` field of an `Options` value in the aliasing model: the slice
it holds. -/
structure OptionsW where
  w : Nat
deriving DecidableEq, Repr

/-- `WithWriter(w...)` in the aliasing model: read the argument slice,
allocate a fresh array with the same contents (`make` + `copy`), store
the fresh slice in the options. -/
def WithWriterM (s : WStore) (arg : Nat) : WStore × OptionsW :=
  let content := s.read arg
  let (s1, nid) := s.alloc content
  (s1, { w := nid })

/-- `zapcore.NewMultiWriteSyncer`: a record written through the fan-out is
delivered to every syncer in the list. -/
def multiWrite (sinks : List GoWriter) (r : String) : List (GoWriter × String) :=
  sinks.map (fun s => (s, r))

/-! ## Supporting lemmas -/

theorem validate_ok_iff (o : Options) :
    o.Validate = Except.ok () ↔
      (o.driver ≠ DriverRef.nil ∧
       (o.encoder = EncoderJSON ∨ o.encoder = EncoderConsole) ∧
       o.w ≠ []) := by
  unfold Options.Validate
  split_ifs with h1 h2 h3 <;>
    simp_all [List.length_eq_zero] <;> tauto

theorem dropWhile_append_all {p : Char → Bool} (l₁ l₂ : List Char)
    (h : ∀ c ∈ l₁, p c = true) :
    (l₁ ++ l₂).dropWhile p = l₂.dropWhile p := by
  induction l₁ with
  | nil => rfl
  | cons a t ih =>
      rw [List.cons_append, List.dropWhile_cons, if_pos (h a (List.mem_cons_self a t))]
      exact ih (fun c hc => h c (List.mem_cons_of_mem a hc))

theorem dropWhile_all_nil {p : Char → Bool} (l : List Char) (h : ∀ c ∈ l, p c = true) :
    l.dropWhile p = [] := by
  have := dropWhile_append_all l [] h
  simpa using this

theorem dropWhile_none {p : Char → Bool} (l : List Char) (h : ∀ c ∈ l, p c = false) :
    l.dropWhile p = l := by
  cases l with
  | nil => rfl
  | cons a t =>
      rw [List.dropWhile_cons, if_neg]
      simp [h a (List.mem_cons_self a t)]

theorem goTrimSpace_wrapped (pre core suf : List Char)
    (hpre : ∀ c ∈ pre, goIsSpace c = true)
    (hsuf : ∀ c ∈ suf, goIsSpace c = true)
    (hcore : ∀ c ∈ core, goIsSpace c = false) :
    goTrimSpace (pre ++ core ++ suf) = core := by
  unfold goTrimSpace
  rw [List.append_assoc, dropWhile_append_all pre (core ++ suf) hpre]
  cases core with
  | nil =>
      rw [List.nil_append, dropWhile_all_nil suf hsuf]
      rfl
  | cons a t =>
      have ha : goIsSpace a = false := hcore a (List.mem_cons_self a t)
      rw [List.cons_append, List.dropWhile_cons, if_neg (by simp [ha])]
      have h1 : ∀ c ∈ suf.reverse, goIsSpace c = true := by
        intro c hc; exact hsuf c (List.mem_reverse.mp hc)
      have h2 : ∀ c ∈ t.reverse ++ [a], goIsSpace c = false := by
        intro c hc
        rcases List.mem_append.mp hc with h | h
        · exact hcore c (List.mem_cons_of_mem a (List.mem_reverse.mp h))
        · have : c = a := by simpa using h
          subst this; exact ha
      calc ((a :: (t ++ suf)).reverse.dropWhile goIsSpace).reverse
          = ((suf.reverse ++ (t.reverse ++ [a])).dropWhile goIsSpace).reverse := by
              simp [List.reverse_cons, List.reverse_append, List.append_assoc]
        _ = ((t.reverse ++ [a]).dropWhile goIsSpace).reverse := by
              rw [dropWhile_append_all _ _ h1]
        _ = (t.reverse ++ [a]).reverse := by rw [dropWhile_none _ h2]
        _ = a :: t := by simp

theorem space_fix (c : Char) (h : goIsSpace c = true) : goToLowerChar c = c := by
  simp only [goIsSpace, Bool.or_eq_true, Bool.and_eq_true, decide_eq_true_eq] at h
  unfold goToLowerChar
  rw [if_neg (by omega), if_neg (by omega), if_neg (by omega)]

theorem core_nonspace (core name : List Char) (hlow : goToLower core = name)
    (hname : ∀ c ∈ name, goIsSpace c = false) :
    ∀ c ∈ core, goIsSpace c = false := by
  intro c hc
  by_contra hcs
  have hcs' : goIsSpace c = true := by
    revert hcs; cases goIsSpace c <;> simp
  have hmem : goToLowerChar c ∈ name := by
    rw [← hlow]
    exact List.mem_map_of_mem goToLowerChar hc
  rw [space_fix c hcs'] at hmem
  rw [hname c hmem] at hcs'
  exact absurd hcs' (by simp)

theorem table_names_nonspace (name : List Char) (lvl : Level)
    (h : (name, lvl) ∈ unmarshalLevelText) : ∀ c ∈ name, goIsSpace c = false := by
  simp only [unmarshalLevelText, List.mem_cons, List.not_mem_nil, or_false] at h
  rcases h with h | h | h | h | h <;>
    (rw [Prod.mk.injEq] at h; obtain ⟨h1, _⟩ := h; subst h1; decide)

theorem lookup_mem (name : List Char) (lvl : Level)
    (h : (name, lvl) ∈ unmarshalLevelText) : lookupLevel name = some lvl := by
  simp only [unmarshalLevelText, List.mem_cons, List.not_mem_nil, or_false] at h
  rcases h with h | h | h | h | h <;>
    (rw [Prod.mk.injEq] at h; obtain ⟨h1, h2⟩ := h; subst h1; subst h2; decide)

theorem mem_of_lookup (t : List Char) (lvl : Level) (h : lookupLevel t = some lvl) :
    (t, lvl) ∈ unmarshalLevelText := by
  unfold lookupLevel at h
  cases hf : unmarshalLevelText.find? (fun p => p.fst == t) with
  | none => rw [hf] at h; exact absurd h (by simp)
  | some p =>
      rw [hf] at h
      have hp := List.find?_some hf
      have hmem : p ∈ unmarshalLevelText := List.mem_of_find?_eq_some hf
      have ht : p.fst = t := by simpa using hp
      have hl : p.snd = lvl := by simpa using h
      rw [← ht, ← hl]
      exact hmem

theorem list_getD_append_self (l : List (List GoWriter)) (c : List GoWriter) :
    (l ++ [c]).getD l.length [] = c := by
  induction l with
  | nil => rfl
  | cons a t ih => simpa using ih

theorem list_getD_set_ne (l : List (List GoWriter)) (i j : Nat) (v : List GoWriter)
    (h : i ≠ j) : (l.set i v).getD j [] = l.getD j [] := by
  induction l generalizing i j with
  | nil => rfl
  | cons a t ih =>
      cases i with
      | zero =>
          cases j with
          | zero => exact absurd rfl h
          | succ j => simp [List.set]
      | succ i =>
          cases j with
          | zero => simp [List.set]
          | succ j =>
              simpa [List.set] using ih i j (by omega)

/-! ## Claim theorems -/

/-- C1: `NewLogger` applies the option functions in order to the default
options (skipping nil entries); if the resulting options fail validation
(nil driver, encoder not json/console, or empty writer list) the entire
configuration is discarded and the logger is built from `defaultOptions`
instead, and on success it is built from the applied options.  Being a
total function into `Options`, `NewLoggerOptions` surfaces no error and no
panic to the caller. -/
theorem newLogger_fallback (fos : List FuncOption) :
    (∀ g : Options → Options,
        applyFuncOptions (fos ++ [some g]) = g (applyFuncOptions fos)) ∧
    (applyFuncOptions (fos ++ [Option.none]) = applyFuncOptions fos) ∧
    (((applyFuncOptions fos).driver = DriverRef.nil ∨
      ((applyFuncOptions fos).encoder ≠ EncoderJSON ∧
       (applyFuncOptions fos).encoder ≠ EncoderConsole) ∨
      (applyFuncOptions fos).w = []) →
        NewLoggerOptions fos = defaultOptions) ∧
    ((applyFuncOptions fos).driver ≠ DriverRef.nil →
     ((applyFuncOptions fos).encoder = EncoderJSON ∨
      (applyFuncOptions fos).encoder = EncoderConsole) →
     (applyFuncOptions fos).w ≠ [] →
        NewLoggerOptions fos = applyFuncOptions fos) := by
  refine ⟨?_, ?_, ?_, ?_⟩
  · intro g
    simp [applyFuncOptions, List.foldl_append, applyFuncOption]
  · simp [applyFuncOptions, List.foldl_append, applyFuncOption]
  · intro h
    have hv : ¬(applyFuncOptions fos).Validate = Except.ok () := by
      rw [validate_ok_iff]
      tauto
    show (match (applyFuncOptions fos).Validate with
          | Except.error _ => defaultOptions
          | Except.ok _ => applyFuncOptions fos) = defaultOptions
    cases he : (applyFuncOptions fos).Validate with
    | error e => rfl
    | ok u => cases u; exact absurd he hv
  · intro h1 h2 h3
    have hv : (applyFuncOptions fos).Validate = Except.ok () :=
      (validate_ok_iff _).mpr ⟨h1, h2, h3⟩
    show (match (applyFuncOptions fos).Validate with
          | Except.error _ => defaultOptions
          | Except.ok _ => applyFuncOptions fos) = applyFuncOptions fos
    rw [hv]

/-- C1 witness: one invalid-encoder option sequence falls back to
`defaultOptions`, and a valid sequence keeps its applied options. -/
theorem newLogger_fallback_witness :
    NewLoggerOptions [WithEncoder "xml"] = defaultOptions ∧
    NewLoggerOptions [WithWriter [GoWriter.stdout], WithLevel InfoLevel] =
      applyFuncOptions [WithWriter [GoWriter.stdout], WithLevel InfoLevel] :=
  ⟨(newLogger_fallback [WithEncoder "xml"]).2.2.1
      (Or.inr (Or.inl ⟨by decide, by decide⟩)),
   (newLogger_fallback [WithWriter [GoWriter.stdout], WithLevel InfoLevel]).2.2.2
      (by decide) (by decide) (by decide)⟩

/-- C2: updating the default-logger slot with nil leaves `DefaultLogger`
unchanged, and updating with any non-nil logger X makes `DefaultLogger`
return exactly X. -/
theorem updateDefaultLogger_spec (slot l : GoLogger) :
    DefaultLogger (UpdateDefaultLogger slot GoLogger.nil) = DefaultLogger slot ∧
    (l ≠ GoLogger.nil → DefaultLogger (UpdateDefaultLogger slot l) = l) := by
  constructor
  · simp [DefaultLogger, UpdateDefaultLogger]
  · intro h
    simp [DefaultLogger, UpdateDefaultLogger, h]

/-- C2 witness at a concrete slot and logger. -/
theorem updateDefaultLogger_spec_witness :
    DefaultLogger (UpdateDefaultLogger (GoLogger.ref 1) GoLogger.nil) =
      DefaultLogger (GoLogger.ref 1) ∧
    DefaultLogger (UpdateDefaultLogger (GoLogger.ref 1) (GoLogger.ref 2)) =
      GoLogger.ref 2 :=
  ⟨(updateDefaultLogger_spec (GoLogger.ref 1) (GoLogger.ref 2)).1,
   (updateDefaultLogger_spec (GoLogger.ref 1) (GoLogger.ref 2)).2 (by decide)⟩

/-- C3: at the value level, `WithWriter ws` stores exactly `ws` in the
options; and in the aliasing model, the `make`+`copy` allocates a fresh
backing array holding the same elements in the same order, so a later
element assignment through the caller's original slice does not change the
stored destination list. -/
theorem withWriter_defensive_copy (s : WStore) (arg : Nat)
    (harg : arg < s.arrays.length) :
    (∀ o ws, (applyFuncOption o (WithWriter ws)).w = ws) ∧
    (WithWriterM s arg).1.read (WithWriterM s arg).2.w = s.read arg ∧
    (∀ i w, ((WithWriterM s arg).1.setElem arg i w).read (WithWriterM s arg).2.w
        = s.read arg) := by
  refine ⟨fun o ws => rfl, ?_, ?_⟩
  · show (s.arrays ++ [s.read arg]).getD s.arrays.length [] = s.read arg
    exact list_getD_append_self s.arrays (s.read arg)
  · intro i w
    show ((s.arrays ++ [s.read arg]).set arg
            (((s.arrays ++ [s.read arg]).getD arg []).set i w)).getD s.arrays.length []
        = s.read arg
    rw [list_getD_set_ne _ _ _ _ (by omega)]
    exact list_getD_append_self s.arrays (s.read arg)

/-- C3 witness: a two-element writer slice is copied; overwriting the
original slice's first element afterwards leaves the stored list intact. -/
theorem withWriter_defensive_copy_witness :
    (WithWriterM ⟨[[GoWriter.handle 1, GoWriter.handle 2]]⟩ 0).1.read
        (WithWriterM ⟨[[GoWriter.handle 1, GoWriter.handle 2]]⟩ 0).2.w
      = [GoWriter.handle 1, GoWriter.handle 2] ∧
    ((WithWriterM ⟨[[GoWriter.handle 1, GoWriter.handle 2]]⟩ 0).1.setElem 0 0
        GoWriter.stderr).read
        (WithWriterM ⟨[[GoWriter.handle 1, GoWriter.handle 2]]⟩ 0).2.w
      = [GoWriter.handle 1, GoWriter.handle 2] :=
  ⟨(withWriter_defensive_copy ⟨[[GoWriter.handle 1, GoWriter.handle 2]]⟩ 0
      (by decide)).2.1,
   (withWriter_defensive_copy ⟨[[GoWriter.handle 1, GoWriter.handle 2]]⟩ 0
      (by decide)).2.2 0 GoWriter.stderr⟩

/-- C4: for text that is one of the five level names in any letter case
(lower-casing it gives a table name) surrounded by any whitespace,
`ParseLevel` returns the matching level; for any text whose trimmed,
lower-cased form matches no table name it returns `NoneLevel`, as it does
for the empty string; being total, it never fails. -/
theorem parseLevel_spec :
    (∀ pre core suf : List Char,
        (∀ c ∈ pre, goIsSpace c = true) →
        (∀ c ∈ suf, goIsSpace c = true) →
        ∀ name lvl, (name, lvl) ∈ unmarshalLevelText →
          goToLower core = name →
          ParseLevel (pre ++ core ++ suf) = lvl) ∧
    (∀ text : List Char,
        (∀ p ∈ unmarshalLevelText, goToLower (goTrimSpace text) ≠ p.fst) →
        ParseLevel text = NoneLevel) ∧
    ParseLevel [] = NoneLevel := by
  refine ⟨?_, ?_, rfl⟩
  · intro pre core suf hpre hsuf name lvl hmem hlow
    have hname := table_names_nonspace name lvl hmem
    have hcore := core_nonspace core name hlow hname
    show (match lookupLevel (goToLower (goTrimSpace (pre ++ core ++ suf))) with
          | some l => l
          | none => NoneLevel) = lvl
    rw [goTrimSpace_wrapped pre core suf hpre hsuf hcore, hlow,
        lookup_mem name lvl hmem]
  · intro text h
    show (match lookupLevel (goToLower (goTrimSpace text)) with
          | some l => l
          | none => NoneLevel) = NoneLevel
    cases hl : lookupLevel (goToLower (goTrimSpace text)) with
    | none => rfl
    | some lvl =>
        exact absurd rfl (h _ (mem_of_lookup _ lvl hl))

/-- C4 witness: a mixed-case, whitespace-padded "warn" parses to
`WarnLevel`; an unknown word parses to `NoneLevel`. -/
theorem parseLevel_spec_witness :
    ParseLevel ([' '] ++ ['W', 'a', 'R', 'n'] ++ ['\t']) = WarnLevel ∧
    ParseLevel ['z'] = NoneLevel :=
  ⟨parseLevel_spec.1 [' '] ['W', 'a', 'R', 'n'] ['\t'] (by decide) (by decide)
      ['w', 'a', 'r', 'n'] WarnLevel (by decide) (by decide),
   parseLevel_spec.2.1 ['z'] (by decide)⟩

/-- C5: the Zap driver, given valid options whose level is `NoneLevel`,
installs the gate `zapcore.FatalLevel + 1`, which lies strictly above the
severity of every one of the twelve logging methods, so none of them emits
a record. -/
theorem zap_none_disabled (o : Options) (hv : o.Validate = Except.ok ())
    (hl : o.lvl = NoneLevel) :
    (NewZapDriver (some o)).gate = zapcoreFatalLevel + 1 ∧
    (∀ m : Method, methodSeverity m < (NewZapDriver (some o)).gate ∧
        zapEmits (NewZapDriver (some o)) m = false) := by
  have hres : resolveZapOptions (some o) = o := by
    show (match o.Validate with
          | Except.error _ => defaultOptions
          | Except.ok _ => o) = o
    rw [hv]
  have hgate : (NewZapDriver (some o)).gate = zapcoreFatalLevel + 1 := by
    show ((zapLevel (resolveZapOptions (some o)).lvl).getD zapcoreInfoLevel)
        = zapcoreFatalLevel + 1
    rw [hres, hl]
    rfl
  refine ⟨hgate, fun m => ⟨?_, ?_⟩⟩
  · rw [hgate]
    cases m <;> decide
  · unfold zapEmits
    rw [hgate]
    cases m <;> decide

/-- C5 witness: a concrete valid `NoneLevel` configuration never emits,
e.g. through `Error`. -/
theorem zap_none_disabled_witness :
    zapEmits (NewZapDriver (some
      { lvl := NoneLevel, w := [GoWriter.stdout], encoder := EncoderJSON,
        caller := false, driver := DriverRef.zapDriver })) Method.error = false :=
  ((zap_none_disabled
      { lvl := NoneLevel, w := [GoWriter.stdout], encoder := EncoderJSON,
        caller := false, driver := DriverRef.zapDriver }
      rfl rfl).2 Method.error).2

/-- A configuration that passes validation although its only writer entry
is the nil interface value. -/
def nilWriterOpts : Options :=
  { lvl := InfoLevel
    w := [GoWriter.nil]
    encoder := EncoderJSON
    caller := false
    driver := DriverRef.zapDriver }

/-- C6 counterexample: with a writer list consisting of one nil entry the
options validate, every nil entry is skipped — leaving an empty
destination list — yet the driver does not fall back to standard output:
its fan-out sink is empty, because the stdout fallback tests the length of
the original writer list, not the nil-skipped one. -/
theorem zap_fanout_cex :
    nilWriterOpts.Validate = Except.ok () ∧
    nilWriterOpts.w.filter (fun x => x != GoWriter.nil) = [] ∧
    (NewZapDriver (some nilWriterOpts)).syncers = [] ∧
    (NewZapDriver (some nilWriterOpts)).syncers ≠ [GoWriter.stdout] := by
  refine ⟨rfl, by decide, by decide, by decide⟩

/-- C6 (amended): nil writer entries are skipped and each record written
through the fan-out reaches every remaining writer; the stdout fallback
applies exactly when the options' writer list itself is empty (before nil
skipping), so an all-nil non-empty list produces an empty sink. -/
theorem zap_fanout_amended (w : List GoWriter) :
    (w = [] → buildSyncers w = [GoWriter.stdout]) ∧
    (w ≠ [] → buildSyncers w = w.filter (fun x => x != GoWriter.nil) ∧
        GoWriter.nil ∉ buildSyncers w) ∧
    (∀ optsIn, (NewZapDriver optsIn).syncers
        = buildSyncers (resolveZapOptions optsIn).w) ∧
    (∀ r s, s ∈ buildSyncers w → (s, r) ∈ multiWrite (buildSyncers w) r) := by
  refine ⟨?_, ?_, fun optsIn => rfl, ?_⟩
  · intro h
    subst h
    rfl
  · intro h
    have hlen : ¬w.length = 0 := by
      simpa [List.length_eq_zero] using h
    constructor
    · unfold buildSyncers
      rw [if_neg hlen]
    · unfold buildSyncers
      rw [if_neg hlen]
      intro hmem
      have := (List.mem_filter.mp hmem).2
      simp at this
  · intro r s hs
    exact List.mem_map_of_mem (fun x => (x, r)) hs

/-- C6 amended-claim witness: a list holding a nil entry and a real writer
keeps exactly the real writer. -/
theorem zap_fanout_amended_witness :
    buildSyncers [GoWriter.nil, GoWriter.handle 7] = [GoWriter.handle 7] ∧
    GoWriter.nil ∉ buildSyncers [GoWriter.nil, GoWriter.handle 7] ∧
    buildSyncers [] = [GoWriter.stdout] := by
  refine ⟨?_, ?_, (zap_fanout_amended []).1 rfl⟩
  · have h := ((zap_fanout_amended [GoWriter.nil, GoWriter.handle 7]).2.1
      (by decide)).1
    rw [h]
    decide
  · exact ((zap_fanout_amended [GoWriter.nil, GoWriter.handle 7]).2.1
      (by decide)).2

/-- C7: a structured method call whose field map is nil or empty (`len`
zero) makes exactly the same backend call as the plain-message method with
the message alone; the resulting record carries the message text with no
structured key/value payload. -/
theorem structured_empty_fields (sev : Sev) (msg : String) (args : TFields)
    (h : tLen args = 0) :
    zapStructuredMethod sev msg args = zapPlainMethod sev [GoValue.str msg] ∧
    recordOf (zapStructuredMethod sev msg args) = (sev, msg, []) := by
  have h1 : zapStructuredMethod sev msg args = ZapCall.print sev [GoValue.str msg] := by
    unfold zapStructuredMethod
    rw [if_pos h]
  refine ⟨h1, ?_⟩
  rw [h1]
  rfl

/-- C7 witness: `Infot` with the nil map and with an empty map both equal
the plain `Info` emission of the bare message. -/
theorem structured_empty_fields_witness :
    zapStructuredMethod Sev.info "hello" Option.none
      = zapPlainMethod Sev.info [GoValue.str "hello"] ∧
    zapStructuredMethod Sev.info "hello" (some [])
      = zapPlainMethod Sev.info [GoValue.str "hello"] ∧
    recordOf (zapStructuredMethod Sev.info "hello" Option.none)
      = (Sev.info, "hello", []) :=
  ⟨(structured_empty_fields Sev.info "hello" Option.none rfl).1,
   (structured_empty_fields Sev.info "hello" (some []) rfl).1,
   (structured_empty_fields Sev.info "hello" Option.none rfl).2⟩

/-- C8: `NewLumberJackWriter` succeeds iff the path is non-empty and no
numeric field is negative; the successful writer keeps the configured
values, with zero `MaxRotatedSize`/`MaxRetainDay`/`MaxRetainFiles`
replaced by 100 MB, 7 days and 3 files respectively. -/
theorem lumberjack_spec (conf : LumberJackConfig) :
    ((∃ wtr, NewLumberJackWriter conf = Except.ok wtr) ↔
      ¬(conf.FilePath = "" ∨ conf.MaxRotatedSize < 0 ∨
        conf.MaxRetainDay < 0 ∨ conf.MaxRetainFiles < 0)) ∧
    (∀ wtr, NewLumberJackWriter conf = Except.ok wtr →
      wtr.Filename = conf.FilePath ∧
      wtr.MaxSize = (if conf.MaxRotatedSize = 0 then 100 else conf.MaxRotatedSize) ∧
      wtr.MaxAge = (if conf.MaxRetainDay = 0 then 7 else conf.MaxRetainDay) ∧
      wtr.MaxBackups = (if conf.MaxRetainFiles = 0 then 3 else conf.MaxRetainFiles) ∧
      wtr.LocalTime = conf.LocalTime ∧
      wtr.Compress = conf.Compress) := by
  constructor
  · unfold NewLumberJackWriter LumberJackConfig.Validate
    split_ifs with h1 h2 h3 h4 <;> simp_all
  · intro wtr hw
    unfold NewLumberJackWriter LumberJackConfig.Validate at hw
    split_ifs at hw
    all_goals first
      | (injection hw with hw
         subst hw
         exact ⟨rfl, rfl, rfl, rfl, rfl, rfl⟩)
      | simp at hw

/-- C8 witness: a config with zero size and file-count fields succeeds and
receives the 100 MB and 3-file defaults while the explicit 5-day retention
is kept. -/
theorem lumberjack_spec_witness :
    (LumberjackLogger.mk "/tmp/app.log" 100 5 3 true false).MaxSize = 100 ∧
    (LumberjackLogger.mk "/tmp/app.log" 100 5 3 true false).MaxAge = 5 ∧
    (LumberjackLogger.mk "/tmp/app.log" 100 5 3 true false).MaxBackups = 3 ∧
    (LumberjackLogger.mk "/tmp/app.log" 100 5 3 true false).Filename = "/tmp/app.log" := by
  have h := (lumberjack_spec
      (LumberJackConfig.mk "/tmp/app.log" 0 5 0 true false)).2
      (LumberjackLogger.mk "/tmp/app.log" 100 5 3 true false) rfl
  refine ⟨?_, ?_, ?_, h.1⟩
  · rw [h.2.1]; rfl
  · rw [h.2.2.1]; rfl
  · rw [h.2.2.2.1]; rfl

/-- C9 counterexample: "before close, Close itself returns without error"
fails.  At the concrete input of a live, driver-constructed logger whose
sink is `os.Stdout` on a terminal — where `AddSync` hands the `*os.File`
through unwrapped and `l.zap.Sync()` returns the error
"sync /dev/stdout: invalid argument" — the first `Close` propagates that
non-nil error to its caller. -/
theorem zapClose_sync_error_cex :
    (ZapLogger.close (ZapLogger.mk true false)
        (some "sync /dev/stdout: invalid argument")).fst
      = some "sync /dev/stdout: invalid argument" ∧
    (ZapLogger.close (ZapLogger.mk true false)
        (some "sync /dev/stdout: invalid argument")).fst
      ≠ Option.none := by
  refine ⟨rfl, ?_⟩
  intro h
  exact Option.noConfusion h

/-- C9 (amended): any logging method invoked on a `zapLogger` whose
backend handle was never assigned, or on one that has been closed, aborts
with a panic (modelled as `Except.error` carrying the panic message)
rather than returning normally; the first `Close` on a live logger returns
exactly the backend flush result — contributing no error of its own, so it
returns without error whenever the sink's flush succeeds — and marks the
logger closed; repeated `Close` calls always return nil and change
nothing; and every method invoked after `Close` panics. -/
theorem zapLogger_lifecycle_amended (l : ZapLogger) (syncResult : Option String) :
    (l.zapAssigned = false → ∀ m, ∃ s, l.invoke m = Except.error s) ∧
    (l.closed = true → ∀ m, ∃ s, l.invoke m = Except.error s) ∧
    (l.zapAssigned = true → l.closed = false →
        (l.close syncResult).fst = syncResult) ∧
    (syncResult = Option.none → (l.close syncResult).fst = Option.none) ∧
    (l.close syncResult).snd.closed = true ∧
    (∀ r, ((l.close syncResult).snd.close r).fst = Option.none ∧
          ((l.close syncResult).snd.close r).snd = (l.close syncResult).snd) ∧
    (∀ m, ∃ s, (l.close syncResult).snd.invoke m = Except.error s) := by
  obtain ⟨za, cl⟩ := l
  refine ⟨?_, ?_, ?_, ?_, ?_, ?_, ?_⟩
  · intro h m
    subst h
    exact ⟨_, rfl⟩
  · intro h m
    subst h
    cases za <;> exact ⟨_, rfl⟩
  · intro hza hcl
    subst hza
    subst hcl
    rfl
  · intro h
    subst h
    cases za <;> cases cl <;> simp [ZapLogger.close]
  · cases za <;> cases cl <;> simp [ZapLogger.close]
  · intro r
    cases za <;> cases cl <;> simp [ZapLogger.close]
  · intro m
    cases za <;> cases cl <;> exact ⟨_, rfl⟩

/-- C9 witness: an uninitialized logger's `Info` panics; a live logger
whose sink flush succeeds gets a nil-returning first `Close`; a second
`Close` (even were its flush to fail) returns nil; and the closed logger's
`Warn` panics. -/
theorem zapLogger_lifecycle_amended_witness :
    (∃ s, (ZapLogger.mk false false).invoke Method.info = Except.error s) ∧
    ((ZapLogger.mk true false).close Option.none).fst = Option.none ∧
    ((((ZapLogger.mk true false).close Option.none).snd.close
        (some "sync /dev/stdout: invalid argument")).fst = Option.none) ∧
    (∃ s, ((ZapLogger.mk true false).close Option.none).snd.invoke Method.warn
        = Except.error s) :=
  ⟨(zapLogger_lifecycle_amended (ZapLogger.mk false false) Option.none).1
      rfl Method.info,
   (zapLogger_lifecycle_amended (ZapLogger.mk true false) Option.none).2.2.1
      rfl rfl,
   ((zapLogger_lifecycle_amended (ZapLogger.mk true false) Option.none).2.2.2.2.2.1
      (some "sync /dev/stdout: invalid argument")).1,
   (zapLogger_lifecycle_amended (ZapLogger.mk true false) Option.none).2.2.2.2.2.2
      Method.warn⟩

/-- C10: `NewZapDriver` applied to a nil `*Options` neither fails nor
panics: it is a total function that builds exactly what it builds for
`defaultOptions` — Debug gate, JSON encoder, caller capture off, stdout
fan-out — and the returned logger is live (every method call passes the
usage gate). -/
theorem newZapDriver_nil_safe :
    NewZapDriver Option.none = NewZapDriver (some defaultOptions) ∧
    resolveZapOptions Option.none = defaultOptions ∧
    (NewZapDriver Option.none).gate = zapcoreDebugLevel ∧
    (NewZapDriver Option.none).encoderKind = EncoderJSON ∧
    (NewZapDriver Option.none).callerEnabled = false ∧
    (NewZapDriver Option.none).syncers = [GoWriter.stdout] ∧
    (NewZapDriver Option.none).logger = ZapLogger.mk true false ∧
    (∀ m, (NewZapDriver Option.none).logger.invoke m = Except.ok m) := by
  refine ⟨rfl, rfl, rfl, rfl, rfl, rfl, rfl, ?_⟩
  intro m
  rfl

end Tslog
